import Mathlib

/-!
# Key dispatch and interactive filters of the editor

A shallow embedding of `application.go` (key resolution, keymap-stack dispatch,
hex colour parsing) and `interactive_filters.go` (the generic interactive filter
and its update functions), followed by the properties established about them.

Conventions of the embedding:

* a Go `string` / `[]byte` is a Lean `String`; the conversion `string(bytes)`
  copies the content and is the identity here; where the code measures and
  slices a string by bytes (`parseHexColor`) the string is its list of bytes;
* a Go `int` is a Lean `Int`;
* a Go `map[K]V` is an association list whose first entry for a key is the
  entry of the map;
* a Go function value that may be `nil` is an `Option`;
* a run-time panic (index out of range) is the result `none`;
* the input device (raylib) is an explicit `Device` snapshot read by the
  resolvers.
-/

namespace EditorSpec

/-! ## Input device -/

/-- The raylib keyboard key constants (`rl.KeyApostrophe`, ...): pairwise distinct key codes. -/
inductive KeyboardKey where
  | KeyNull
  | KeyApostrophe | KeyComma | KeyMinus | KeyPeriod | KeySlash
  | KeyZero | KeyOne | KeyTwo | KeyThree | KeyFour | KeyFive | KeySix | KeySeven | KeyEight
  | KeyNine
  | KeySemicolon | KeyEqual
  | KeyA | KeyB | KeyC | KeyD | KeyE | KeyF | KeyG | KeyH | KeyI | KeyJ | KeyK | KeyL | KeyM
  | KeyN | KeyO | KeyP | KeyQ | KeyR | KeyS | KeyT | KeyU | KeyV | KeyW | KeyX | KeyY | KeyZ
  | KeyLeftBracket | KeyBackSlash | KeyRightBracket | KeyGrave
  | KeySpace | KeyEscape | KeyEnter | KeyTab | KeyBackspace | KeyInsert | KeyDelete
  | KeyRight | KeyLeft | KeyDown | KeyUp | KeyPageUp | KeyPageDown | KeyHome | KeyEnd
  | KeyCapsLock | KeyScrollLock | KeyNumLock | KeyPrintScreen | KeyPause
  | KeyF1 | KeyF2 | KeyF3 | KeyF4 | KeyF5 | KeyF6 | KeyF7 | KeyF8 | KeyF9 | KeyF10 | KeyF11
  | KeyF12
  | KeyLeftShift | KeyLeftControl | KeyLeftAlt | KeyLeftSuper
  | KeyRightShift | KeyRightControl | KeyRightAlt | KeyRightSuper | KeyKbMenu
  | KeyKp0 | KeyKp1 | KeyKp2 | KeyKp3 | KeyKp4 | KeyKp5 | KeyKp6 | KeyKp7 | KeyKp8 | KeyKp9
  | KeyKpDecimal | KeyKpDivide | KeyKpMultiply | KeyKpSubtract | KeyKpAdd | KeyKpEnter
  | KeyKpEqual
  deriving DecidableEq, Repr

/-- The raylib mouse button constants. -/
inductive MouseButton where
  | MouseButtonLeft | MouseButtonRight | MouseButtonMiddle
  | MouseButtonSide | MouseButtonExtra | MouseButtonForward | MouseButtonBack
  deriving DecidableEq, Repr

/-- One snapshot of the input device, as the raylib queries report it during a tick.
The wheel movement vector is read only through comparisons with zero; its two
components are integers here. -/
structure Device where
  IsKeyPressed : KeyboardKey → Bool
  IsKeyPressedRepeat : KeyboardKey → Bool
  IsKeyDown : KeyboardKey → Bool
  IsMouseButtonPressed : MouseButton → Bool
  IsMouseButtonDown : MouseButton → Bool
  WheelX : Int
  WheelY : Int

/-- The device on which nothing is pressed, held or moved. -/
def Device.idle : Device where
  IsKeyPressed := fun _ => false
  IsKeyPressedRepeat := fun _ => false
  IsKeyDown := fun _ => false
  IsMouseButtonPressed := fun _ => false
  IsMouseButtonDown := fun _ => false
  WheelX := 0
  WheelY := 0

/-- The device state in which exactly the keys of `ks` are reported pressed. -/
def Device.pressing (ks : List KeyboardKey) : Device :=
  { Device.idle with IsKeyPressed := fun k => decide (k ∈ ks) }

/-! ## Keys, commands, keymaps (`application.go`) -/

/-- The Go struct `Key`. -/
structure Key where
  Control : Bool
  Alt : Bool
  Shift : Bool
  Super : Bool
  K : String
  deriving DecidableEq, Repr

/-- The zero value `Key{}`. -/
def Key.zero : Key := ⟨false, false, false, false, ""⟩

/-- `func (k Key) IsEmpty() bool`. -/
def Key.IsEmpty (k : Key) : Bool := k.K == ""

/-- `type Keymap map[Key]Command`: the stored command may be `nil`. A command value is a
member of `κ`; what it does when called is given by the interpreter passed to dispatch. -/
abbrev Keymap (κ : Type) := List (Key × Option κ)

/-- The map index expression `m[key]`: the stored command, `nil` (`none`) when the key has no
entry, and also when the entry stores `nil`. -/
def Keymap.index {κ : Type} (m : Keymap κ) (key : Key) : Option κ :=
  match m.lookup key with
  | some (some c) => some c
  | _ => none

/-- `type Commands map[string]Command`. -/
abbrev Commands (κ : Type) := List (String × Option κ)

/-- `type Variables map[string]any`, with `ν` for the values. -/
abbrev Variables (ν : Type) := List (String × ν)

/-- `color.RGBA`: four 8-bit channels. -/
structure RGBA where
  R : Nat
  G : Nat
  B : Nat
  A : Nat
  deriving DecidableEq, Repr

/-- The Go struct `Colors`. -/
structure Colors where
  Background : RGBA
  Foreground : RGBA
  Selection : RGBA
  StatusBarBackground : RGBA
  StatusBarForeground : RGBA
  LineNumbersForeground : RGBA
  Cursor : RGBA
  SyntaxKeyword : RGBA
  deriving DecidableEq, Repr

/-- The editor type is declared outside the embedded sources; dispatch reads its keymap
stack only. -/
structure Editor (κ : Type) where
  Keymaps : List (Keymap κ)
  deriving DecidableEq, Repr

/-- The Go struct `Preditor`. -/
structure Preditor (κ ν : Type) where
  Editors : List (Editor κ)
  ActiveEditorIndex : Int
  GlobalKeymaps : List (Keymap κ)
  GlobalVariables : Variables ν
  Commands : Commands κ
  LineWrapping : Bool
  LineNumbers : Bool
  Colors : Colors
  deriving DecidableEq, Repr

/-- Go slice indexing `xs[i]` with an `int` index: `none` is the index-out-of-range panic. -/
def sliceIndex {α : Type} (xs : List α) (i : Int) : Option α :=
  if 0 ≤ i then xs.get? i.toNat else none

/-- `func (e *Preditor) ActiveEditor() *Editor`. -/
def Preditor.ActiveEditor {κ ν : Type} (e : Preditor κ ν) : Option (Editor κ) :=
  sliceIndex e.Editors e.ActiveEditorIndex

/-- `type Command func(*Preditor) error`: calling a command value on the application
state gives the state it leaves and the error it returns (`none` for `nil`). -/
abbrev Interp (κ ν : Type) := κ → Preditor κ ν → Preditor κ ν × Option String

/-! ## Key resolution -/

/-- The Go struct `modifierKeyState`. -/
structure modifierKeyState where
  control : Bool
  alt : Bool
  shift : Bool
  super : Bool
  deriving DecidableEq, Repr

open KeyboardKey MouseButton in
/-- `func getModifierKeyState() modifierKeyState`. -/
def getModifierKeyState (d : Device) : modifierKeyState where
  control := d.IsKeyDown KeyLeftControl || d.IsKeyDown KeyRightControl
  alt := d.IsKeyDown KeyLeftAlt || d.IsKeyDown KeyRightAlt
  shift := d.IsKeyDown KeyLeftShift || d.IsKeyDown KeyRightShift
  super := d.IsKeyDown KeyLeftSuper || d.IsKeyDown KeyRightSuper

/-- `func isPressed(key int32) bool`. -/
def isPressed (d : Device) (key : KeyboardKey) : Bool :=
  d.IsKeyPressed key || d.IsKeyPressedRepeat key

open KeyboardKey in
/-- The cases of the `switch` of `getKeyPressedString`, in source order: the key tested and
the token returned. -/
def keyCases : List (KeyboardKey × String) :=
  [ (KeyApostrophe, "`"), (KeySpace, "<space>"), (KeyEscape, "<esc>"), (KeyEnter, "<enter>"),
    (KeyTab, "<tab>"), (KeyBackspace, "<backspace>"), (KeyInsert, "<insert>"),
    (KeyDelete, "<delete>"), (KeyRight, "<right>"), (KeyLeft, "<left>"), (KeyDown, "<down>"),
    (KeyUp, "<up>"), (KeyPageUp, "<pageup>"), (KeyPageDown, "<pagedown>"),
    (KeyHome, "<home>"), (KeyEnd, "<end>"), (KeyCapsLock, "<capslock>"),
    (KeyScrollLock, "<scrolllock>"), (KeyNumLock, "<numlock>"),
    (KeyPrintScreen, "<printscreen>"), (KeyPause, "<pause>"),
    (KeyF1, "<f1>"), (KeyF2, "<f2>"), (KeyF3, "<f3>"), (KeyF4, "<f4>"), (KeyF5, "<f5>"),
    (KeyF6, "<f6>"), (KeyF7, "<f7>"), (KeyF8, "<f8>"), (KeyF9, "<f9>"), (KeyF10, "<f10>"),
    (KeyF11, "<f11>"), (KeyF12, "<f12>"),
    (KeyLeftBracket, "["), (KeyBackSlash, "\\"), (KeyRightBracket, "]"),
    (KeyKp0, "0"), (KeyKp1, "1"), (KeyKp2, "2"), (KeyKp3, "3"), (KeyKp4, "4"),
    (KeyKp5, "5"), (KeyKp6, "6"), (KeyKp7, "7"), (KeyKp8, "8"), (KeyKp9, "9"),
    (KeyKpDecimal, "."), (KeyKpDivide, "/"), (KeyKpMultiply, "*"), (KeyKpSubtract, "-"),
    (KeyKpAdd, "+"), (KeyKpEnter, "<enter>"), (KeyKpEqual, "="),
    (KeyApostrophe, "'"), (KeyComma, ","), (KeyMinus, "-"), (KeyPeriod, "."),
    (KeySlash, "/"),
    (KeyZero, "0"), (KeyOne, "1"), (KeyTwo, "2"), (KeyThree, "3"), (KeyFour, "4"),
    (KeyFive, "5"), (KeySix, "6"), (KeySeven, "7"), (KeyEight, "8"), (KeyNine, "9"),
    (KeySemicolon, ";"), (KeyEqual, "="),
    (KeyA, "a"), (KeyB, "b"), (KeyC, "c"), (KeyD, "d"), (KeyE, "e"), (KeyF, "f"),
    (KeyG, "g"), (KeyH, "h"), (KeyI, "i"), (KeyJ, "j"), (KeyK, "k"), (KeyL, "l"),
    (KeyM, "m"), (KeyN, "n"), (KeyO, "o"), (KeyP, "p"), (KeyQ, "q"), (KeyR, "r"),
    (KeyS, "s"), (KeyT, "t"), (KeyU, "u"), (KeyV, "v"), (KeyW, "w"), (KeyX, "x"),
    (KeyY, "y"), (KeyZ, "z") ]

/-- A `switch` whose cases are `case isPressed(key): return token`: the token of the first
case whose key is pressed, and the `default` token `""` when none is. -/
def switchPressed (d : Device) : List (KeyboardKey × String) → String
  | [] => ""
  | (key, token) :: rest => if isPressed d key then token else switchPressed d rest

/-- `func getKeyPressedString() string`. -/
def getKeyPressedString (d : Device) : String :=
  switchPressed d keyCases

/-- The keyboard key-token vocabulary of the specification: the lowercase letters, the
digits, the eleven punctuation literals and the named tokens. -/
def keyboardVocabulary : List String :=
  [ "a", "b", "c", "d", "e", "f", "g", "h", "i", "j", "k", "l", "m", "n", "o", "p", "q", "r",
    "s", "t", "u", "v", "w", "x", "y", "z",
    "0", "1", "2", "3", "4", "5", "6", "7", "8", "9",
    "`", "'", ",", "-", ".", "/", ";", "=", "[", "]", "\\",
    "<space>", "<esc>", "<enter>", "<tab>", "<backspace>", "<insert>", "<delete>", "<right>",
    "<left>", "<down>", "<up>", "<pageup>", "<pagedown>", "<home>", "<end>", "<capslock>",
    "<scrolllock>", "<numlock>", "<printscreen>", "<pause>",
    "<f1>", "<f2>", "<f3>", "<f4>", "<f5>", "<f6>", "<f7>", "<f8>", "<f9>", "<f10>", "<f11>",
    "<f12>" ]

/-- `func getKey() Key`. -/
def getKey (d : Device) : Key :=
  let modifierState := getModifierKeyState d
  let key := getKeyPressedString d
  { Control := modifierState.control
    Alt := modifierState.alt
    Super := modifierState.super
    Shift := modifierState.shift
    K := key }

open MouseButton in
/-- The button `switch` of `getMouseKey`: the first case that holds; `""` when none does. -/
def mouseButtonToken (d : Device) : String :=
  if d.IsMouseButtonPressed MouseButtonLeft then "<lmouse>-click"
  else if d.IsMouseButtonPressed MouseButtonMiddle then "<mmouse>-click"
  else if d.IsMouseButtonPressed MouseButtonRight then "<rmouse>-click"
  else if d.IsMouseButtonDown MouseButtonLeft then "<lmouse>-hold"
  else if d.IsMouseButtonDown MouseButtonMiddle then "<mmouse>-hold"
  else if d.IsMouseButtonDown MouseButtonRight then "<rmouse>-hold"
  else ""

/-- The wheel block of `getMouseKey`, applied to the token chosen by the button `switch`. -/
def mouseWheelToken (d : Device) (key : String) : String :=
  if d.WheelX ≠ 0 ∨ d.WheelY ≠ 0 then
    if d.WheelY ≠ 0 then
      let key := if d.WheelY < 0 then "<mouse-wheel-down>" else key
      if d.WheelY > 0 then "<mouse-wheel-up>" else key
    else key
  else key

/-- `func getMouseKey() Key`. -/
def getMouseKey (d : Device) : Key :=
  let modifierState := getModifierKeyState d
  let key := mouseWheelToken d (mouseButtonToken d)
  if key == "" then Key.zero
  else
    { Control := modifierState.control
      Alt := modifierState.alt
      Super := modifierState.super
      Shift := modifierState.shift
      K := key }

/-! ## Dispatch -/

/-- What one dispatch leaves behind: the application state, and the commands that were
called, in call order. -/
structure Dispatched (κ ν : Type) where
  state : Preditor κ ν
  ran : List κ
  deriving DecidableEq, Repr

/-- The loop `for i := ...; i >= 0; i-- { cmd := e.ActiveEditor().Keymaps[i][key]; if cmd != nil
{ cmd(e); break } }`, entered with `i + 1 = n`. The value returned by `cmd(e)` is dropped
by the call statement. -/
def dispatchLoop {κ ν : Type} (call : Interp κ ν) (key : Key) (e : Preditor κ ν) :
    Nat → Option (Dispatched κ ν)
  | 0 => some ⟨e, []⟩
  | i + 1 =>
    match e.ActiveEditor with
    | none => none
    | some ed =>
      match ed.Keymaps.get? i with
      | none => none
      | some keymap =>
        match keymap.index key with
        | some cmd => some ⟨(call cmd e).1, [cmd]⟩
        | none => dispatchLoop call key e i

/-- The body shared by `HandleKeyEvents` and `HandleMouseEvents` once the key is resolved. -/
def dispatchKey {κ ν : Type} (call : Interp κ ν) (key : Key) (e : Preditor κ ν) :
    Option (Dispatched κ ν) :=
  if !key.IsEmpty then
    match e.ActiveEditor with
    | none => none
    | some ed => dispatchLoop call key e ed.Keymaps.length
  else some ⟨e, []⟩

/-- `func (e *Preditor) HandleKeyEvents()`. -/
def Preditor.HandleKeyEvents {κ ν : Type} (call : Interp κ ν) (d : Device) (e : Preditor κ ν) :
    Option (Dispatched κ ν) :=
  dispatchKey call (getKey d) e

/-- `func (e *Preditor) HandleMouseEvents()`. -/
def Preditor.HandleMouseEvents {κ ν : Type} (call : Interp κ ν) (d : Device)
    (e : Preditor κ ν) : Option (Dispatched κ ν) :=
  dispatchKey call (getMouseKey d) e

/-! ## Interactive filter (`interactive_filters.go`) -/

/-- `type ScoredItem[T any] struct`. -/
structure ScoredItem (T : Type) where
  Item : T
  Score : Int
  deriving DecidableEq, Repr

/-- `components.ListComponent[T]`, declared outside the embedded sources: the three fields
the embedded code reads and writes. -/
structure ListComponent (T : Type) where
  Items : List T
  Selection : Int
  VisibleStart : Int
  deriving DecidableEq, Repr

/-- `components.UserInputComponent`, declared outside the embedded sources: the typed text
and the cursor index. -/
structure UserInputComponent where
  UserInput : String
  Idx : Int
  deriving DecidableEq, Repr

/-- `type InteractiveFilter[T any] struct`, over the type `C` of the parent context. The
fields `BaseDrawable`, `cfg` and `keymaps` are neither read nor written by the functions
embedded below and are left out. `UpdateList` receives the list by pointer: it is a
function from the list before to the list after. `OpenSelection` receives the context by
pointer and returns an error. -/
structure InteractiveFilter (C T : Type) where
  parent : C
  List : ListComponent T
  UserInputComponent : UserInputComponent
  LastInputWeRanUpdateFor : String
  UpdateList : ListComponent T → String → ListComponent T
  OpenSelection : C → T → C × Option String
  ItemRepr : T → String

/-- What one `Render` leaves behind: the filter, and the calls of `UpdateList` that were made
(the list and the input passed), in call order. -/
structure Rendered (C T : Type) where
  filter : InteractiveFilter C T
  updateCalls : List (ListComponent T × String)

/-- `func (i *InteractiveFilter[T]) Render(zeroLocation, maxH, maxW)`. The drawing calls do
not touch the filter. `VisibleView` (declared outside the embedded sources) is called on the
list with `maxLine`, which Render computes from the font metrics; both are parameters:
`visibleView` is the effect of that call on the list. -/
def InteractiveFilter.Render {C T : Type}
    (visibleView : ListComponent T → Int → ListComponent T) (maxLine : Int)
    (i : InteractiveFilter C T) : Rendered C T :=
  let input := i.UserInputComponent.UserInput
  let r : Rendered C T :=
    if i.LastInputWeRanUpdateFor ≠ input then
      ⟨{ i with LastInputWeRanUpdateFor := input, List := i.UpdateList i.List input },
        [(i.List, input)]⟩
    else ⟨i, []⟩
  ⟨{ r.filter with List := visibleView r.filter.List maxLine }, r.updateCalls⟩

/-- What the `<enter>` command leaves behind: the parent context, the items `OpenSelection`
was called with (in call order), and the error returned. -/
structure Committed (C T : Type) where
  parent : C
  opened : List T
  err : Option String
  deriving DecidableEq, Repr

/-- The command bound to `Key{K: "<enter>"}` in `makeKeymap`. -/
def makeKeymap.enter {C T : Type} (e : InteractiveFilter C T) : Option (Committed C T) :=
  if (e.List.Items.length : Int) > 0 ∧ (e.List.Items.length : Int) > e.List.Selection then
    match sliceIndex e.List.Items e.List.Selection with
    | none => none
    | some item =>
      let r := e.OpenSelection e.parent item
      some ⟨r.1, [item], r.2⟩
  else some ⟨e.parent, [], none⟩

/-- Modelled from the spec: `sortme(slice, pred)` is declared outside the embedded sources.
The specification requires of the sort after a re-score that it orders the items by the
comparator "with ties broken by original/insertion order (a stable sort is required)".
This is the insertion of one element into a sorted list, after every element that must
precede it and before the first that need not. -/
def sortme.insert {T : Type} (pred : T → T → Bool) (a : T) : List T → List T
  | [] => [a]
  | b :: l => if pred b a then b :: sortme.insert pred a l else a :: b :: l

/-- Modelled from the spec: `sortme(slice, pred)`, declared outside the embedded sources: a
stable sort of the slice by the comparator `pred` ("sort items descending by score with
ties broken by original/insertion order"). -/
def sortme {T : Type} (pred : T → T → Bool) : List T → List T
  | [] => []
  | a :: l => sortme.insert pred a (sortme pred l)

/-- The loop `for idx, item := range l.Items { l.Items[idx].Score = score(item.Item) }`. -/
def rescore {T : Type} (score : T → Int) (items : List (ScoredItem T)) : List (ScoredItem T) :=
  items.map fun item => { item with Score := score item.Item }

/-- The comparator `func(t1, t2) bool { return t1.Score > t2.Score }`. -/
def scoreGreater {T : Type} (t1 t2 : ScoredItem T) : Bool :=
  decide (t1.Score > t2.Score)

/-- The closure `updateList` of `NewBufferSwitcher`. The scorer `fuzzy.RankMatchNormalizedFold`
(an external library) is the parameter `rank`, and `fmt.Sprint` on a `Drawable` is the
parameter `sprint`. -/
def NewBufferSwitcher.updateList {D : Type} (rank : String → String → Int)
    (sprint : D → String) (l : ListComponent (ScoredItem D)) (input : String) :
    ListComponent (ScoredItem D) :=
  { l with Items := sortme scoreGreater (rescore (fun item => rank input (sprint item)) l.Items) }

/-- The closure `updateList` of `NewThemeSwitcher`; `fmt.Sprint` of a string is the string. -/
def NewThemeSwitcher.updateList (rank : String → String → Int)
    (l : ListComponent (ScoredItem String)) (input : String) :
    ListComponent (ScoredItem String) :=
  { l with Items := sortme scoreGreater (rescore (fun item => rank input item) l.Items) }

/-- `type LocationItem struct`. -/
structure LocationItem where
  Filename : String
  deriving DecidableEq, Repr

/-- The closure `updateList` of `NewInteractiveFuzzyFile`. -/
def NewInteractiveFuzzyFile.updateList (rank : String → String → Int)
    (l : ListComponent (ScoredItem LocationItem)) (input : String) :
    ListComponent (ScoredItem LocationItem) :=
  { l with
    Items := sortme scoreGreater (rescore (fun item => rank input item.Filename) l.Items) }

/-- The closure `updateList` of `NewInteractiveFilePicker`. `filepath.Glob` is the parameter
`Glob`; the result of `os.Stat` is not used. -/
def NewInteractiveFilePicker.updateList (Glob : String → Except String (List String))
    (l : ListComponent LocationItem) (input : String) : ListComponent LocationItem :=
  match Glob (input ++ "*") with
  | .error _ => l
  | .ok found =>
    let items : List LocationItem := found.map fun m => { Filename := m }
    let selection := if l.Selection ≥ (items.length : Int) then (items.length : Int) - 1
      else l.Selection
    let selection := if selection < 0 then 0 else selection
    { l with Items := items, Selection := selection }

/-! ## Hex colours (`application.go`) -/

/-- One byte of a Go string. `parseHexColor` measures, indexes and slices its argument by
bytes, so for it a Go string is the sequence of its bytes. -/
abbrev Byte := Fin 256

/-- The bytes (UTF-8) of a string literal. -/
def String.goBytes (s : String) : List Byte :=
  s.toUTF8.data.toList.map fun b => b.val

/-- `lower(c)` of package strconv: `c | ('x' - 'X')`. -/
def strconv.lower (c : Nat) : Nat := c ||| 0x20

/-- The digit `switch` in the loop of `strconv.ParseUint` for an explicit base (no underscore
is accepted then): the value of the digit, `none` for the `default` case (syntax error). -/
def strconv.digit (c : Byte) : Option Nat :=
  if 48 ≤ c.val ∧ c.val ≤ 57 then some (c.val - 48)
  else if 97 ≤ strconv.lower c.val ∧ strconv.lower c.val ≤ 122 then
    some (strconv.lower c.val - 97 + 10)
  else none

/-- The loop of `strconv.ParseUint` over the bytes of the string, with `n` the value so far;
`uint64` arithmetic wraps modulo `2^64`. -/
def strconv.parseLoop (base cutoff maxVal : Nat) : List Byte → Nat → Except String Nat
  | [], n => .ok n
  | c :: rest, n =>
    match strconv.digit c with
    | none => .error "invalid syntax"
    | some d =>
      if d ≥ base then .error "invalid syntax"
      else if n ≥ cutoff then .error "value out of range"
      else
        let n0 := (n * base) % 2 ^ 64
        let n1 := (n0 + d) % 2 ^ 64
        if n1 < n0 ∨ n1 > maxVal then .error "value out of range"
        else strconv.parseLoop base cutoff maxVal rest n1

/-- `strconv.ParseUint(s, base, bitSize)` of the Go standard library, for an explicit base
`2 <= base <= 36`: the value, or the error. The case `base == 0` (base prefixes and
underscores) is not embedded and is answered like any other base outside `2..36`;
`parseHexColor` passes base 16. -/
def strconv.ParseUint (s : List Byte) (base bitSize : Nat) : Except String Nat :=
  if s = [] then .error "invalid syntax"
  else if ¬ (2 ≤ base ∧ base ≤ 36) then .error "invalid base"
  else if bitSize > 64 then .error "invalid bit size"
  else
    let bitSize := if bitSize = 0 then 64 else bitSize
    let cutoff := (2 ^ 64 - 1) / base + 1
    let maxVal := 2 ^ bitSize - 1
    strconv.parseLoop base cutoff maxVal s 0

/-- The Go slice expression `v[lo:hi]` on a string, for `lo <= hi <= len(v)`. -/
def byteSlice (v : List Byte) (lo hi : Nat) : List Byte :=
  (v.drop lo).take (hi - lo)

/-- `func parseHexColor(v string) (out color.RGBA, err error)`: the colour returned (as far
as it was filled in) and the error, `none` for `nil`. The conversion `uint8(x)` is
`x % 256`. -/
def parseHexColor (v : List Byte) : RGBA × Option String :=
  let out : RGBA := ⟨0, 0, 0, 0⟩
  if v.length ≠ 7 then (out, some "hex color must be 7 characters")
  else if v.head? ≠ some 35 then (out, some "hex color must start with '#'")
  else
    match strconv.ParseUint (byteSlice v 1 3) 16 8 with
    | .error _ => (out, some "red component invalid")
    | .ok red =>
      let out := { out with R := red % 256 }
      match strconv.ParseUint (byteSlice v 3 5) 16 8 with
      | .error _ => (out, some "green component invalid")
      | .ok green =>
        let out := { out with G := green % 256 }
        match strconv.ParseUint (byteSlice v 5 7) 16 8 with
        | .error _ => (out, some "blue component invalid")
        | .ok blue => ({ out with B := blue % 256, A := 255 }, none)

/-- A hexadecimal digit, either case: `0`-`9`, `a`-`f`, `A`-`F`. -/
def isHexDigit (c : Byte) : Bool :=
  (48 ≤ c.val && c.val ≤ 57) || (97 ≤ c.val && c.val ≤ 102) || (65 ≤ c.val && c.val ≤ 70)

/-- The value of a hexadecimal digit. -/
def hexDigitValue (c : Byte) : Nat :=
  if 48 ≤ c.val ∧ c.val ≤ 57 then c.val - 48
  else if 97 ≤ c.val ∧ c.val ≤ 102 then c.val - 97 + 10
  else c.val - 65 + 10

/-- The value of a pair of hexadecimal digits read as a base-16 number. -/
def hexPairValue (hi lo : Byte) : Nat :=
  16 * hexDigitValue hi + hexDigitValue lo

/-- The form the specification of `parseHexColor` names: seven bytes, `#` followed by six
hexadecimal digits. -/
def isHexColorForm : List Byte → Bool
  | [h, r1, r2, g1, g2, b1, b2] =>
    h = 35 && isHexDigit r1 && isHexDigit r2 && isHexDigit g1 && isHexDigit g2 &&
      isHexDigit b1 && isHexDigit b2
  | _ => false

/-- The colour a string of that form denotes: the three pairs as base-16 numbers, and full
opacity. -/
def hexColorValue : List Byte → RGBA
  | [_, r1, r2, g1, g2, b1, b2] =>
    ⟨hexPairValue r1 r2, hexPairValue g1 g2, hexPairValue b1 b2, 255⟩
  | _ => ⟨0, 0, 0, 0⟩

/-! ## Sample data -/

/-- The key `a` without modifiers. -/
def keyA : Key := ⟨false, false, false, false, "a"⟩

/-- The left-click mouse key without modifiers. -/
def keyLeftClick : Key := ⟨false, false, false, false, "<lmouse>-click"⟩

/-- A stack of two keymaps: the bottom one binds `a` and the left click to command 1, the top
one binds both to command 2. -/
def sampleStack : List (Keymap Nat) :=
  [[(keyA, some 1), (keyLeftClick, some 1)], [(keyA, some 2), (keyLeftClick, some 2)]]

/-- An application with one editor, whose stack is the sample stack. -/
def sampleApp : Preditor Nat Unit where
  Editors := [⟨sampleStack⟩]
  ActiveEditorIndex := 0
  GlobalKeymaps := []
  GlobalVariables := []
  Commands := []
  LineWrapping := false
  LineNumbers := false
  Colors := ⟨⟨0, 0, 0, 0⟩, ⟨0, 0, 0, 0⟩, ⟨0, 0, 0, 0⟩, ⟨0, 0, 0, 0⟩, ⟨0, 0, 0, 0⟩, ⟨0, 0, 0, 0⟩,
    ⟨0, 0, 0, 0⟩, ⟨0, 0, 0, 0⟩⟩

/-- An interpreter under which every command switches line numbers on and returns no
error. -/
def sampleCall : Interp Nat Unit :=
  fun _ e => ({ e with LineNumbers := true }, none)

/-- An interpreter under which every command makes the same state change and then returns
an error. -/
def sampleCallFailing : Interp Nat Unit :=
  fun _ e => ({ e with LineNumbers := true }, some "command failed")

/-- The empty key with the control modifier set. -/
def keyControlOnly : Key := ⟨true, false, false, false, ""⟩

/-- An application whose only keymap has entries for empty keys, bound to command 9. -/
def sampleAppEmptyEntry : Preditor Nat Unit :=
  { sampleApp with Editors := [⟨[[(keyControlOnly, some 9), (Key.zero, some 9)]]⟩] }

/-- The device on which the left control key is held and no key is pressed. -/
def Device.holdingControl : Device :=
  { Device.idle with IsKeyDown := fun k => decide (k = KeyboardKey.KeyLeftControl) }

/-- A glob collaborator that finds the same two paths for every pattern. -/
def sampleGlob : String → Except String (List String) :=
  fun _ => .ok ["src/a.go", "src/b.go"]

/-- A filter over strings with two items, the second selected; opening an item counts it in
the parent context and succeeds. -/
def sampleFilter : InteractiveFilter Nat String where
  parent := 0
  List := ⟨["alpha", "beta"], 1, 0⟩
  UserInputComponent := ⟨"", 0⟩
  LastInputWeRanUpdateFor := ""
  UpdateList := fun l _ => l
  OpenSelection := fun c _ => (c + 1, none)
  ItemRepr := fun t => t

/-- The inner loop of `rank` in the fuzzysearch library: look for the rune `r1` in the rest of
the target, counting the runes skipped; `none` when the target is exhausted. -/
def rankScan (r1 : Char) : List Char → Nat → Option (List Char × Nat)
  | [], _ => none
  | r2 :: rest, runeDiff =>
    if r1 = r2 then some (rest, runeDiff) else rankScan r1 rest (runeDiff + 1)

/-- The outer loop of `rank` in the fuzzysearch library, and its final count of the runes
left in the target. -/
def rankOuter : List Char → List Char → Nat → Int
  | [], target, runeDiff => ((runeDiff + target.length : Nat) : Int)
  | r1 :: source, target, runeDiff =>
    match rankScan r1 target runeDiff with
    | none => -1
    | some (rest, runeDiff2) => rankOuter source rest runeDiff2

/-- The scorer `fuzzy.RankMatchNormalizedFold(source, target)` of the external fuzzysearch
library, on ASCII text (there Unicode normalisation is the identity and case folding is
lower-casing): `-1` when the folded source is not a subsequence of the folded target, and
otherwise the number of target runes left unmatched. It is one scorer the filters can be
given; the filters themselves are embedded over an arbitrary scorer. -/
def RankMatchNormalizedFold (source target : String) : Int :=
  if target.utf8ByteSize < source.utf8ByteSize then -1
  else
    let s := source.toList.map Char.toLower
    let t := target.toList.map Char.toLower
    if target.utf8ByteSize = source.utf8ByteSize ∧ s = t then 0
    else rankOuter s t 0

/-- The file list of the scenario: `readme.md`, `main.go`, `reader.go`, nothing scored yet. -/
def sampleFiles : ListComponent (ScoredItem LocationItem) :=
  ⟨[⟨⟨"readme.md"⟩, 0⟩, ⟨⟨"main.go"⟩, 0⟩, ⟨⟨"reader.go"⟩, 0⟩], 0, 0⟩

/-- A stack of two keymaps: the bottom one binds `a` and the left click to command 1, the top
one has entries for both keys that store `nil`. -/
def sampleStackNilTop : List (Keymap Nat) :=
  [[(keyA, some 1), (keyLeftClick, some 1)], [(keyA, none), (keyLeftClick, none)]]

/-- An application with one editor, whose stack has the `nil` entries on top. -/
def sampleAppNilTop : Preditor Nat Unit :=
  { sampleApp with Editors := [⟨sampleStackNilTop⟩] }

/-- The device on which the wheel moved sideways while the left mouse button was pressed. -/
def Device.sidewaysWheelLeftClick : Device :=
  { Device.idle with
    IsMouseButtonPressed := fun b => decide (b = MouseButton.MouseButtonLeft)
    WheelX := 1 }

/-- The device on which the wheel moved sideways and no button is pressed or held. -/
def Device.sidewaysWheel : Device :=
  { Device.idle with WheelX := 1 }

/-- The device on which the wheel moved down while the left mouse button was pressed and is
held. -/
def Device.wheelDownLeftClick : Device :=
  { Device.idle with
    IsMouseButtonPressed := fun b => decide (b = MouseButton.MouseButtonLeft)
    IsMouseButtonDown := fun b => decide (b = MouseButton.MouseButtonLeft)
    WheelY := -1 }

/-- The device on which the right mouse button was pressed this tick while the left one is
held. -/
def Device.rightClickLeftHeld : Device :=
  { Device.idle with
    IsMouseButtonPressed := fun b => decide (b = MouseButton.MouseButtonRight)
    IsMouseButtonDown := fun b =>
      decide (b = MouseButton.MouseButtonLeft ∨ b = MouseButton.MouseButtonRight) }

/-- The device on which the left mouse button was pressed this tick. -/
def Device.leftClick : Device :=
  { Device.idle with IsMouseButtonPressed := fun b => decide (b = MouseButton.MouseButtonLeft) }

/-! ## Dispatch: lemmas -/

/-- The loop entered above the topmost binding keymap calls that keymap's command and
stops. -/
theorem dispatchLoop_topmost {κ ν : Type} (call : Interp κ ν) (key : Key) (e : Preditor κ ν)
    (ed : Editor κ) (i : Nat) (keymap : Keymap κ) (cmd : κ)
    (hed : e.ActiveEditor = some ed)
    (hi : ed.Keymaps.get? i = some keymap)
    (hcmd : keymap.index key = some cmd)
    (htop : ∀ j keymap2, i < j → ed.Keymaps.get? j = some keymap2 → keymap2.index key = none) :
    ∀ n, i < n → n ≤ ed.Keymaps.length →
      dispatchLoop call key e n = some ⟨(call cmd e).1, [cmd]⟩ := by
  intro n
  induction n with
  | zero => intro h; omega
  | succ m ih =>
    intro him hlen
    have hm : m < ed.Keymaps.length := by omega
    obtain ⟨km, hkm⟩ : ∃ km, ed.Keymaps.get? m = some km :=
      ⟨ed.Keymaps.get ⟨m, hm⟩, List.get?_eq_get hm⟩
    by_cases hmi : m = i
    · subst hmi
      have : km = keymap := by
        rw [hkm] at hi; exact Option.some.inj hi
      subst this
      simp only [dispatchLoop, hed, hkm, hcmd]
    · have hlt : i < m := by omega
      have hnone := htop m km hlt hkm
      simp only [dispatchLoop, hed, hkm, hnone]
      exact ih hlt (by omega)

/-- The loop calls nothing when no keymap below its entry point binds the key. -/
theorem dispatchLoop_unbound {κ ν : Type} (call : Interp κ ν) (key : Key) (e : Preditor κ ν)
    (ed : Editor κ) (hed : e.ActiveEditor = some ed)
    (hnone : ∀ keymap ∈ ed.Keymaps, keymap.index key = none) :
    ∀ n, n ≤ ed.Keymaps.length → dispatchLoop call key e n = some ⟨e, []⟩ := by
  intro n
  induction n with
  | zero => intro _; rfl
  | succ m ih =>
    intro hlen
    have hm : m < ed.Keymaps.length := by omega
    have hkm : ed.Keymaps.get? m = some (ed.Keymaps.get ⟨m, hm⟩) := List.get?_eq_get hm
    have hidx := hnone _ (List.get_mem ed.Keymaps m hm)
    simp only [dispatchLoop, hed, hkm, hidx]
    exact ih (by omega)

/-- The loop never reads the error a command returns. -/
theorem dispatchLoop_error_blind {κ ν : Type} (call call2 : Interp κ ν)
    (hstate : ∀ c s, (call c s).1 = (call2 c s).1) (key : Key) (e : Preditor κ ν) :
    ∀ n, dispatchLoop call key e n = dispatchLoop call2 key e n := by
  intro n
  induction n with
  | zero => rfl
  | succ m ih =>
    simp only [dispatchLoop, ih, hstate]

/-- Dispatch of a resolved key never reads the error a command returns. -/
theorem dispatchKey_error_blind {κ ν : Type} (call call2 : Interp κ ν)
    (hstate : ∀ c s, (call c s).1 = (call2 c s).1) (key : Key) (e : Preditor κ ν) :
    dispatchKey call key e = dispatchKey call2 key e := by
  unfold dispatchKey
  split
  · cases e.ActiveEditor with
    | none => rfl
    | some ed => exact dispatchLoop_error_blind call call2 hstate key e _
  · rfl

/-- Dispatch of a non-empty key bound somewhere in the stack. -/
theorem dispatchKey_topmost {κ ν : Type} (call : Interp κ ν) (key : Key) (e : Preditor κ ν)
    (ed : Editor κ) (i : Nat) (keymap : Keymap κ) (cmd : κ)
    (hkey : key.IsEmpty = false)
    (hed : e.ActiveEditor = some ed)
    (hi : ed.Keymaps.get? i = some keymap)
    (hcmd : keymap.index key = some cmd)
    (htop : ∀ j keymap2, i < j → ed.Keymaps.get? j = some keymap2 → keymap2.index key = none) :
    dispatchKey call key e = some ⟨(call cmd e).1, [cmd]⟩ := by
  have hlt : i < ed.Keymaps.length := by
    by_contra hge
    rw [List.get?_eq_none.mpr (by omega)] at hi
    cases hi
  simp only [dispatchKey, hkey, Bool.not_false, if_true, hed]
  exact dispatchLoop_topmost call key e ed i keymap cmd hed hi hcmd htop _ hlt (le_refl _)

/-- Dispatch of an empty key, or of a key no keymap of the stack binds. -/
theorem dispatchKey_noop {κ ν : Type} (call : Interp κ ν) (key : Key) (e : Preditor κ ν)
    (h : key.IsEmpty = true ∨
      ∃ ed, e.ActiveEditor = some ed ∧ ∀ keymap ∈ ed.Keymaps, keymap.index key = none) :
    dispatchKey call key e = some ⟨e, []⟩ := by
  unfold dispatchKey
  by_cases hk : key.IsEmpty = true
  · simp [hk]
  · rcases h with h | ⟨ed, hed, hnone⟩
    · exact absurd h hk
    · simp only [hk, Bool.not_eq_true] at *
      simp only [hk, Bool.not_false, if_true, hed]
      exact dispatchLoop_unbound call key e ed hed hnone _ (le_refl _)

/-- In a stack where some keymap binds the key to a command there is a topmost such
keymap. -/
theorem topmost_binding_exists {κ : Type} (key : Key) :
    ∀ keymaps : List (Keymap κ), (∃ keymap ∈ keymaps, keymap.index key ≠ none) →
      ∃ i keymap cmd, keymaps.get? i = some keymap ∧ keymap.index key = some cmd ∧
        ∀ j keymap2, i < j → keymaps.get? j = some keymap2 → keymap2.index key = none
  | [], h => by
    obtain ⟨km, hmem, _⟩ := h
    cases hmem
  | a :: rest, h => by
    by_cases hrest : ∃ keymap ∈ rest, keymap.index key ≠ none
    · obtain ⟨i, km, cmd, hi, hcmd, htop⟩ := topmost_binding_exists key rest hrest
      refine ⟨i + 1, km, cmd, by simpa using hi, hcmd, ?_⟩
      intro j km2 hj hget
      obtain ⟨j2, rfl⟩ : ∃ j2, j = j2 + 1 := ⟨j - 1, by omega⟩
      exact htop j2 km2 (by omega) (by simpa using hget)
    · obtain ⟨km, hmem, hkm⟩ := h
      have hkma : km = a := by
        rcases List.mem_cons.mp hmem with h1 | h1
        · exact h1
        · exact absurd ⟨km, h1, hkm⟩ hrest
      subst hkma
      obtain ⟨cmd, hcmd⟩ := Option.ne_none_iff_exists.mp hkm
      refine ⟨0, km, cmd, rfl, hcmd.symm, ?_⟩
      intro j km2 hj hget
      obtain ⟨j2, rfl⟩ : ∃ j2, j = j2 + 1 := ⟨j - 1, by omega⟩
      have hmem2 : km2 ∈ rest := List.get?_mem (by simpa using hget)
      by_contra hne
      exact hrest ⟨km2, hmem2, hne⟩

/-! ## Dispatch: properties -/

/-- C1. Dispatch precedence: when the resolved key is non-empty and at least one keymap of the
active editor's stack binds it to a (non-nil) command, there is a highest index `i` whose
keymap binds the key, to a command `cmd`, no keymap at a higher index binding it, and
`HandleKeyEvents` (and likewise `HandleMouseEvents`) calls exactly one command, once, and it
is `cmd`; the state left is the one `cmd` leaves. Bindings of other keys, and bindings of
the key in keymaps added earlier, play no part. -/
theorem dispatch_precedence {κ ν : Type} (call : Interp κ ν) (d : Device) (key : Key)
    (e : Preditor κ ν) (ed : Editor κ)
    (hkey : key.IsEmpty = false)
    (hed : e.ActiveEditor = some ed)
    (hbound : ∃ keymap ∈ ed.Keymaps, keymap.index key ≠ none) :
    ∃ i keymap cmd, ed.Keymaps.get? i = some keymap ∧ keymap.index key = some cmd ∧
      (∀ j keymap2, i < j → ed.Keymaps.get? j = some keymap2 → keymap2.index key = none) ∧
      (getKey d = key → e.HandleKeyEvents call d = some ⟨(call cmd e).1, [cmd]⟩) ∧
      (getMouseKey d = key → e.HandleMouseEvents call d = some ⟨(call cmd e).1, [cmd]⟩) := by
  obtain ⟨i, keymap, cmd, hi, hcmd, htop⟩ := topmost_binding_exists key ed.Keymaps hbound
  refine ⟨i, keymap, cmd, hi, hcmd, htop, ?_, ?_⟩
  · intro hk
    unfold Preditor.HandleKeyEvents
    rw [hk]
    exact dispatchKey_topmost call key e ed i keymap cmd hkey hed hi hcmd htop
  · intro hk
    unfold Preditor.HandleMouseEvents
    rw [hk]
    exact dispatchKey_topmost call key e ed i keymap cmd hkey hed hi hcmd htop

/-- Witness of C1: two keymaps bind `a` (and the left click) to commands 1 and 2; pressing `a`
(clicking) runs command 2, of the later-added keymap, and nothing else. -/
theorem dispatch_precedence_witness :
    (∃ (i : Nat) (keymap : Keymap Nat) (cmd : Nat),
      sampleStack.get? i = some keymap ∧ keymap.index keyA = some cmd ∧
      (∀ (j : Nat) (keymap2 : Keymap Nat), i < j → sampleStack.get? j = some keymap2 →
        keymap2.index keyA = none) ∧
      (getKey (Device.pressing [KeyboardKey.KeyA]) = keyA →
        sampleApp.HandleKeyEvents sampleCall (Device.pressing [KeyboardKey.KeyA]) =
          some ⟨(sampleCall cmd sampleApp).1, [cmd]⟩) ∧
      (getMouseKey (Device.pressing [KeyboardKey.KeyA]) = keyA →
        sampleApp.HandleMouseEvents sampleCall (Device.pressing [KeyboardKey.KeyA]) =
          some ⟨(sampleCall cmd sampleApp).1, [cmd]⟩)) ∧
    sampleApp.HandleKeyEvents sampleCall (Device.pressing [KeyboardKey.KeyA]) =
      some ⟨{ sampleApp with LineNumbers := true }, [2]⟩ ∧
    sampleApp.HandleMouseEvents sampleCall Device.leftClick =
      some ⟨{ sampleApp with LineNumbers := true }, [2]⟩ :=
  ⟨dispatch_precedence sampleCall (Device.pressing [KeyboardKey.KeyA]) keyA sampleApp
      ⟨sampleStack⟩ (by decide) (by decide)
      ⟨[(keyA, some 2), (keyLeftClick, some 2)], by decide, by decide⟩,
   by decide, by decide⟩

/-- C2. Dispatch without a match is a no-op: when the resolved key is empty (whatever its
modifier flags and whatever the keymaps hold), or no keymap of the active editor's stack
binds it to a command, `HandleKeyEvents` (and likewise `HandleMouseEvents`) calls no command
and leaves the application state as it was. -/
theorem dispatch_without_match {κ ν : Type} (call : Interp κ ν) (d : Device) (key : Key)
    (e : Preditor κ ν)
    (h : key.IsEmpty = true ∨
      ∃ ed, e.ActiveEditor = some ed ∧ ∀ keymap ∈ ed.Keymaps, keymap.index key = none) :
    (getKey d = key → e.HandleKeyEvents call d = some ⟨e, []⟩) ∧
    (getMouseKey d = key → e.HandleMouseEvents call d = some ⟨e, []⟩) := by
  constructor
  · intro hk
    unfold Preditor.HandleKeyEvents
    rw [hk]
    exact dispatchKey_noop call key e h
  · intro hk
    unfold Preditor.HandleMouseEvents
    rw [hk]
    exact dispatchKey_noop call key e h

/-- Witness of C2: with control held and no key pressed the resolved key is empty, and nothing
runs although the keymap has an entry for exactly that key; likewise for the mouse on an
idle device; and pressing `b`, which no keymap of the sample stack binds, runs nothing. -/
theorem dispatch_without_match_witness :
    sampleAppEmptyEntry.HandleKeyEvents sampleCall Device.holdingControl =
      some ⟨sampleAppEmptyEntry, []⟩ ∧
    sampleAppEmptyEntry.HandleMouseEvents sampleCall Device.idle =
      some ⟨sampleAppEmptyEntry, []⟩ ∧
    sampleApp.HandleKeyEvents sampleCall (Device.pressing [KeyboardKey.KeyB]) =
      some ⟨sampleApp, []⟩ :=
  ⟨(dispatch_without_match sampleCall Device.holdingControl keyControlOnly sampleAppEmptyEntry
      (Or.inl (by decide))).1 (by decide),
   (dispatch_without_match sampleCall Device.idle Key.zero sampleAppEmptyEntry
      (Or.inl (by decide))).2 (by decide),
   (dispatch_without_match sampleCall (Device.pressing [KeyboardKey.KeyB])
      ⟨false, false, false, false, "b"⟩ sampleApp
      (Or.inr ⟨⟨sampleStack⟩, by decide, by decide⟩)).1
      (by decide)⟩

/-- C3, counterexample. Under one interpreter command 2 fails, under the other it succeeds
after the same state change; the key `a` (the left click) matches command 2 in both runs,
and what `HandleKeyEvents` (`HandleMouseEvents`) hands back is the same in both: the
failure is not surfaced. -/
theorem dispatch_surfaces_error_counterexample :
    (sampleCallFailing 2 sampleApp).2 = some "command failed" ∧
    (sampleCall 2 sampleApp).2 = none ∧
    sampleApp.HandleKeyEvents sampleCallFailing (Device.pressing [KeyboardKey.KeyA]) =
      some ⟨{ sampleApp with LineNumbers := true }, [2]⟩ ∧
    sampleApp.HandleKeyEvents sampleCallFailing (Device.pressing [KeyboardKey.KeyA]) =
      sampleApp.HandleKeyEvents sampleCall (Device.pressing [KeyboardKey.KeyA]) ∧
    sampleApp.HandleMouseEvents sampleCallFailing Device.leftClick =
      sampleApp.HandleMouseEvents sampleCall Device.leftClick := by
  decide

/-- C3, amended. Dispatch drops the error of the command it calls: for every key and keymap
stack, the outcome of `HandleKeyEvents` (and of `HandleMouseEvents`) is the same under two
behaviours of the commands that leave the same states and differ only in the errors they
return. -/
theorem dispatch_drops_error {κ ν : Type} (call call2 : Interp κ ν) (d : Device)
    (e : Preditor κ ν) (hstate : ∀ c s, (call c s).1 = (call2 c s).1) :
    e.HandleKeyEvents call d = e.HandleKeyEvents call2 d ∧
    e.HandleMouseEvents call d = e.HandleMouseEvents call2 d :=
  ⟨dispatchKey_error_blind call call2 hstate _ e, dispatchKey_error_blind call call2 hstate _ e⟩

/-- Witness of C3 (amended): the failing and the succeeding sample interpreters. -/
theorem dispatch_drops_error_witness :
    (∀ c s, (sampleCallFailing c s).1 = (sampleCall c s).1) ∧
    sampleApp.HandleKeyEvents sampleCallFailing (Device.pressing [KeyboardKey.KeyA]) =
      sampleApp.HandleKeyEvents sampleCall (Device.pressing [KeyboardKey.KeyA]) ∧
    sampleApp.HandleMouseEvents sampleCallFailing Device.leftClick =
      sampleApp.HandleMouseEvents sampleCall Device.leftClick :=
  ⟨fun _ _ => rfl,
   (dispatch_drops_error sampleCallFailing sampleCall (Device.pressing [KeyboardKey.KeyA])
     sampleApp (fun _ _ => rfl)).1,
   (dispatch_drops_error sampleCallFailing sampleCall Device.leftClick
     sampleApp (fun _ _ => rfl)).2⟩

/-! ## Interactive filter: properties -/

/-- C4. Lazy, tick-coalesced re-scoring: one `Render` calls `UpdateList` exactly once, with the
list and the current input, when `LastInputWeRanUpdateFor` differs from the current input,
and not at all when they are equal: the list the tick leaves is the result of that one call
(then passed through `VisibleView`) in the first case and the old list (passed through
`VisibleView`) in the second, and every other field but `LastInputWeRanUpdateFor` is as
before. After the tick `LastInputWeRanUpdateFor` is the current input (which the tick does
not change), so a second tick right after it calls `UpdateList` zero times and leaves the
list it found, passed through `VisibleView` only. -/
theorem render_rescores_once {C T : Type}
    (visibleView : ListComponent T → Int → ListComponent T) (maxLine maxLine2 : Int)
    (i : InteractiveFilter C T) :
    (i.Render visibleView maxLine).updateCalls =
      (if i.LastInputWeRanUpdateFor ≠ i.UserInputComponent.UserInput
        then [(i.List, i.UserInputComponent.UserInput)] else []) ∧
    (i.Render visibleView maxLine).filter.UserInputComponent = i.UserInputComponent ∧
    (i.Render visibleView maxLine).filter.LastInputWeRanUpdateFor =
      i.UserInputComponent.UserInput ∧
    ((i.Render visibleView maxLine).filter.Render visibleView maxLine2).updateCalls = [] ∧
    (i.Render visibleView maxLine).filter.List =
      visibleView
        (if i.LastInputWeRanUpdateFor ≠ i.UserInputComponent.UserInput
          then i.UpdateList i.List i.UserInputComponent.UserInput else i.List) maxLine ∧
    (i.Render visibleView maxLine).filter =
      { i with
        LastInputWeRanUpdateFor := i.UserInputComponent.UserInput
        List := visibleView
          (if i.LastInputWeRanUpdateFor ≠ i.UserInputComponent.UserInput
            then i.UpdateList i.List i.UserInputComponent.UserInput else i.List) maxLine } ∧
    ((i.Render visibleView maxLine).filter.Render visibleView maxLine2).filter =
      { (i.Render visibleView maxLine).filter with
        List := visibleView (i.Render visibleView maxLine).filter.List maxLine2 } := by
  by_cases h : i.LastInputWeRanUpdateFor = i.UserInputComponent.UserInput
  · simp [InteractiveFilter.Render, h]
  · simp [InteractiveFilter.Render, h]

/-- C5. Selection re-clamp on wholesale replacement: after the file picker's `updateList` with a
successful glob, the items are the glob result, `0 <= Selection`, and `Selection < len(items)`
when the items are non-empty; a previous selection at or beyond the new length becomes
`len(items)-1` (the last valid index of a non-empty list), a previous selection in range is
unchanged, and the selection is 0 when the new list is empty. -/
theorem filePicker_reclamps_selection (Glob : String → Except String (List String))
    (l : ListComponent LocationItem) (input : String) (found : List String)
    (hglob : Glob (input ++ "*") = .ok found) :
    (NewInteractiveFilePicker.updateList Glob l input).Items =
      found.map (fun m => ({ Filename := m } : LocationItem)) ∧
    0 ≤ (NewInteractiveFilePicker.updateList Glob l input).Selection ∧
    (found ≠ [] →
      (NewInteractiveFilePicker.updateList Glob l input).Selection < (found.length : Int)) ∧
    (found ≠ [] → (found.length : Int) ≤ l.Selection →
      (NewInteractiveFilePicker.updateList Glob l input).Selection =
        (found.length : Int) - 1) ∧
    (0 ≤ l.Selection → l.Selection < (found.length : Int) →
      (NewInteractiveFilePicker.updateList Glob l input).Selection = l.Selection) ∧
    (found = [] → (NewInteractiveFilePicker.updateList Glob l input).Selection = 0) := by
  have hlen : found ≠ [] → (0 : Int) < (found.length : Int) := by
    intro hne
    have := List.length_pos.mpr hne
    omega
  simp only [NewInteractiveFilePicker.updateList, hglob, List.length_map]
  refine ⟨trivial, ?_, ?_, ?_, ?_, ?_⟩
  · split_ifs <;> omega
  · intro hne
    have := hlen hne
    split_ifs <;> omega
  · intro hne hge
    have := hlen hne
    split_ifs <;> omega
  · intro h0 hlt
    split_ifs <;> omega
  · intro hnil
    subst hnil
    simp only [List.length_nil, Nat.cast_zero]
    split_ifs <;> omega

/-- Witness of C5: a selection of 5 against a glob result of two paths becomes 1. -/
theorem filePicker_reclamps_selection_witness :
    (NewInteractiveFilePicker.updateList sampleGlob ⟨[], 5, 0⟩ "src/").Items =
      [⟨"src/a.go"⟩, ⟨"src/b.go"⟩] ∧
    (NewInteractiveFilePicker.updateList sampleGlob ⟨[], 5, 0⟩ "src/").Selection = 1 :=
  ⟨(filePicker_reclamps_selection sampleGlob ⟨[], 5, 0⟩ "src/" ["src/a.go", "src/b.go"]
      rfl).1,
   (filePicker_reclamps_selection sampleGlob ⟨[], 5, 0⟩ "src/" ["src/a.go", "src/b.go"]
      rfl).2.2.2.1 (by decide) (by decide)⟩

/-- C6. Commit on `<enter>` is guarded: with `Selection >= 0`, the command calls `OpenSelection`
exactly once, with `Items[Selection]`, and returns its result when `Selection < len(Items)`;
otherwise it calls nothing and returns success; no index is out of range in either case. In
particular with an empty item list it does nothing and does not panic. -/
theorem enter_is_guarded {C T : Type} (e : InteractiveFilter C T)
    (hsel : 0 ≤ e.List.Selection) :
    (e.List.Selection < (e.List.Items.length : Int) →
      ∃ item, e.List.Items.get? e.List.Selection.toNat = some item ∧
        makeKeymap.enter e =
          some ⟨(e.OpenSelection e.parent item).1, [item], (e.OpenSelection e.parent item).2⟩) ∧
    ((e.List.Items.length : Int) ≤ e.List.Selection →
      makeKeymap.enter e = some ⟨e.parent, [], none⟩) ∧
    (e.List.Items = [] → makeKeymap.enter e = some ⟨e.parent, [], none⟩) := by
  refine ⟨?_, ?_, ?_⟩
  · intro hlt
    have hnat : e.List.Selection.toNat < e.List.Items.length := by omega
    refine ⟨e.List.Items.get ⟨_, hnat⟩, List.get?_eq_get hnat, ?_⟩
    have hguard : (e.List.Items.length : Int) > 0 ∧
        (e.List.Items.length : Int) > e.List.Selection := by omega
    simp only [makeKeymap.enter, hguard, and_self, if_true, sliceIndex, hsel,
      List.get?_eq_get hnat]
  · intro hge
    have hguard : ¬ ((e.List.Items.length : Int) > 0 ∧
        (e.List.Items.length : Int) > e.List.Selection) := by omega
    simp only [makeKeymap.enter, hguard, if_false]
  · intro hnil
    simp [makeKeymap.enter, hnil]

/-- Witness of C6: with two items and the second selected, `<enter>` opens `beta` once. -/
theorem enter_is_guarded_witness :
    makeKeymap.enter sampleFilter = some ⟨1, ["beta"], none⟩ := by
  obtain ⟨item, hitem, hrun⟩ := (enter_is_guarded sampleFilter (by decide)).1 (by decide)
  have : item = "beta" := by
    have h2 : sampleFilter.List.Items.get? sampleFilter.List.Selection.toNat = some "beta" := rfl
    rw [h2] at hitem
    exact (Option.some.inj hitem).symm
  subst this
  exact hrun

/-! ## Re-score and sort: lemmas -/

/-- Insertion adds the element and keeps the others. -/
theorem sortme_insert_perm {T : Type} (pred : T → T → Bool) (a : T) :
    ∀ l : List T, (sortme.insert pred a l).Perm (a :: l)
  | [] => List.Perm.refl _
  | b :: l => by
    unfold sortme.insert
    split
    · exact ((sortme_insert_perm pred a l).cons b).trans (List.Perm.swap a b l)
    · exact List.Perm.refl _

/-- The sort rearranges the slice: nothing is added, dropped or duplicated. -/
theorem sortme_perm {T : Type} (pred : T → T → Bool) : ∀ l : List T, (sortme pred l).Perm l
  | [] => List.Perm.refl _
  | a :: l => by
    unfold sortme
    exact (sortme_insert_perm pred a _).trans ((sortme_perm pred l).cons a)

/-- A slice in which no element must precede an earlier one is left as it is. -/
theorem sortme_of_ordered {T : Type} (pred : T → T → Bool) :
    ∀ l : List T, l.Pairwise (fun a b => pred b a = false) → sortme pred l = l
  | [], _ => rfl
  | a :: l, h => by
    have hl := sortme_of_ordered pred l (List.Pairwise.of_cons h)
    unfold sortme
    rw [hl]
    cases l with
    | nil => rfl
    | cons b l2 =>
      have hba : pred b a = false := List.rel_of_pairwise_cons h (List.mem_cons_self b l2)
      simp [sortme.insert, hba]

/-- Inserting into a slice that is in descending score order keeps it so. -/
theorem sortme_insert_descending {T : Type} (a : ScoredItem T) :
    ∀ l : List (ScoredItem T), l.Pairwise (fun x y => y.Score ≤ x.Score) →
      (sortme.insert scoreGreater a l).Pairwise (fun x y => y.Score ≤ x.Score)
  | [], _ => by simp [sortme.insert]
  | b :: l, h => by
    unfold sortme.insert
    by_cases hba : scoreGreater b a = true
    · rw [if_pos hba]
      have hgt : a.Score < b.Score := by simpa [scoreGreater] using hba
      refine List.Pairwise.cons ?_ (sortme_insert_descending a l (List.Pairwise.of_cons h))
      intro x hx
      rcases List.mem_cons.mp ((sortme_insert_perm scoreGreater a l).mem_iff.mp hx) with hxa | hxl
      · subst hxa; omega
      · exact List.rel_of_pairwise_cons h hxl
    · rw [if_neg hba]
      have hle : b.Score ≤ a.Score := by
        simpa [scoreGreater] using hba
      refine List.Pairwise.cons ?_ h
      intro x hx
      rcases List.mem_cons.mp hx with hxb | hxl
      · subst hxb; exact hle
      · have := List.rel_of_pairwise_cons h hxl
        omega

/-- The sort by `scoreGreater` leaves the slice in descending score order. -/
theorem sortme_descending {T : Type} :
    ∀ l : List (ScoredItem T),
      (sortme scoreGreater l).Pairwise (fun x y => y.Score ≤ x.Score)
  | [] => List.Pairwise.nil
  | a :: l => by
    unfold sortme
    exact sortme_insert_descending a _ (sortme_descending l)

/-- After the scoring loop every item carries the score of its own text. -/
theorem rescore_scores {T : Type} (score : T → Int) (items : List (ScoredItem T)) :
    ∀ x ∈ rescore score items, x.Score = score x.Item := by
  intro x hx
  obtain ⟨y, _, rfl⟩ := List.mem_map.mp hx
  rfl

/-- The scoring loop changes nothing in a slice whose items already carry their scores. -/
theorem rescore_of_scored {T : Type} (score : T → Int) (items : List (ScoredItem T))
    (h : ∀ x ∈ items, x.Score = score x.Item) : rescore score items = items := by
  unfold rescore
  conv_rhs => rw [← List.map_id items]
  apply List.map_congr_left
  intro x hx
  cases x with
  | mk item sc =>
    have := h _ hx
    simp only at this
    simp [this]

/-- After scoring and sorting every item carries the score of its own text. -/
theorem sorted_scores {T : Type} (score : T → Int) (items : List (ScoredItem T)) :
    ∀ x ∈ sortme scoreGreater (rescore score items), x.Score = score x.Item := by
  intro x hx
  exact rescore_scores score items x ((sortme_perm scoreGreater _).mem_iff.mp hx)

/-- Scoring and sorting a second time with the same scorer changes nothing. -/
theorem rescore_sort_idempotent {T : Type} (score : T → Int) (items : List (ScoredItem T)) :
    sortme scoreGreater (rescore score (sortme scoreGreater (rescore score items))) =
      sortme scoreGreater (rescore score items) := by
  rw [rescore_of_scored score _ (sorted_scores score items)]
  apply sortme_of_ordered
  refine List.Pairwise.imp ?_ (sortme_descending (rescore score items))
  intro x y hxy
  simp only [scoreGreater, decide_eq_false_iff_not, not_lt]
  exact hxy

/-- Scoring and sorting keeps the items: their sequence is a rearrangement of the old one. -/
theorem rescore_sort_items {T : Type} (score : T → Int) (items : List (ScoredItem T)) :
    ((sortme scoreGreater (rescore score items)).map (fun x => x.Item)).Perm
      (items.map (fun x => x.Item)) := by
  have h1 := (sortme_perm scoreGreater (rescore score items)).map (fun x => x.Item)
  have h2 : (rescore score items).map (fun x => x.Item) = items.map (fun x => x.Item) := by
    simp [rescore, List.map_map, Function.comp_def]
  rw [h2] at h1
  exact h1

/-- After scoring and sorting the scores are those the scorer gives the items. -/
theorem rescore_sort_scores {T : Type} (score : T → Int) (items : List (ScoredItem T)) :
    (sortme scoreGreater (rescore score items)).map (fun x => x.Score) =
      (sortme scoreGreater (rescore score items)).map (fun x => score x.Item) :=
  List.map_congr_left (sorted_scores score items)

/-! ## Re-score and sort: properties -/

/-- C7. Fuzzy re-score and sort is idempotent: for every item list, input and scorer, running
the `updateList` of the buffer switcher, of the theme switcher and of the fuzzy file filter
a second time with the same input gives the list the first run gave, with the same item
order and the same scores; that list is in descending score order. -/
theorem fuzzy_updateList_idempotent {D : Type} (rank : String → String → Int)
    (sprint : D → String) (input : String)
    (buffers : ListComponent (ScoredItem D)) (themes : ListComponent (ScoredItem String))
    (files : ListComponent (ScoredItem LocationItem)) :
    (NewBufferSwitcher.updateList rank sprint
        (NewBufferSwitcher.updateList rank sprint buffers input) input =
      NewBufferSwitcher.updateList rank sprint buffers input ∧
     NewThemeSwitcher.updateList rank (NewThemeSwitcher.updateList rank themes input) input =
      NewThemeSwitcher.updateList rank themes input ∧
     NewInteractiveFuzzyFile.updateList rank
        (NewInteractiveFuzzyFile.updateList rank files input) input =
      NewInteractiveFuzzyFile.updateList rank files input) ∧
    ((NewBufferSwitcher.updateList rank sprint buffers input).Items.Pairwise
        (fun x y => y.Score ≤ x.Score) ∧
     (NewThemeSwitcher.updateList rank themes input).Items.Pairwise
        (fun x y => y.Score ≤ x.Score) ∧
     (NewInteractiveFuzzyFile.updateList rank files input).Items.Pairwise
        (fun x y => y.Score ≤ x.Score)) := by
  refine ⟨⟨?_, ?_, ?_⟩, sortme_descending _, sortme_descending _, sortme_descending _⟩
  · simp only [NewBufferSwitcher.updateList]
    rw [rescore_sort_idempotent]
  · simp only [NewThemeSwitcher.updateList]
    rw [rescore_sort_idempotent]
  · simp only [NewInteractiveFuzzyFile.updateList]
    rw [rescore_sort_idempotent]

/-- C8, counterexample. With the scenario's files and the input `rea`, the text `main.go` does
not contain the input as a case-folded subsequence and the scorer gives it `-1`, yet after
`updateList` it is still among the list's items, placed last. -/
theorem nonmatching_item_dropped_counterexample :
    ¬ ("rea".toList.map Char.toLower).Sublist ("main.go".toList.map Char.toLower) ∧
    RankMatchNormalizedFold "rea" "main.go" = -1 ∧
    (NewInteractiveFuzzyFile.updateList RankMatchNormalizedFold sampleFiles "rea").Items =
      [⟨⟨"readme.md"⟩, 6⟩, ⟨⟨"reader.go"⟩, 6⟩, ⟨⟨"main.go"⟩, -1⟩] ∧
    "main.go" ∈
      (NewInteractiveFuzzyFile.updateList RankMatchNormalizedFold sampleFiles "rea").Items.map
        (fun x => x.Item.Filename) := by
  decide

/-- C8, amended. No item drops out of the candidate list: for the fuzzy-scored filters, after
`updateList` the items of the list are a rearrangement of the items before it, matching or
not, each carrying the score the scorer gives its text for the input; selection and viewport
start are untouched. -/
theorem fuzzy_updateList_keeps_items {D : Type} (rank : String → String → Int)
    (sprint : D → String) (input : String)
    (buffers : ListComponent (ScoredItem D)) (themes : ListComponent (ScoredItem String))
    (files : ListComponent (ScoredItem LocationItem)) :
    (((NewBufferSwitcher.updateList rank sprint buffers input).Items.map
          (fun x => x.Item)).Perm (buffers.Items.map (fun x => x.Item)) ∧
      (NewBufferSwitcher.updateList rank sprint buffers input).Items.map (fun x => x.Score) =
        (NewBufferSwitcher.updateList rank sprint buffers input).Items.map
          (fun x => rank input (sprint x.Item)) ∧
      (NewBufferSwitcher.updateList rank sprint buffers input).Selection = buffers.Selection ∧
      (NewBufferSwitcher.updateList rank sprint buffers input).VisibleStart =
        buffers.VisibleStart) ∧
    (((NewThemeSwitcher.updateList rank themes input).Items.map
          (fun x => x.Item)).Perm (themes.Items.map (fun x => x.Item)) ∧
      (NewThemeSwitcher.updateList rank themes input).Items.map (fun x => x.Score) =
        (NewThemeSwitcher.updateList rank themes input).Items.map
          (fun x => rank input x.Item) ∧
      (NewThemeSwitcher.updateList rank themes input).Selection = themes.Selection ∧
      (NewThemeSwitcher.updateList rank themes input).VisibleStart = themes.VisibleStart) ∧
    (((NewInteractiveFuzzyFile.updateList rank files input).Items.map
          (fun x => x.Item)).Perm (files.Items.map (fun x => x.Item)) ∧
      (NewInteractiveFuzzyFile.updateList rank files input).Items.map (fun x => x.Score) =
        (NewInteractiveFuzzyFile.updateList rank files input).Items.map
          (fun x => rank input x.Item.Filename) ∧
      (NewInteractiveFuzzyFile.updateList rank files input).Selection = files.Selection ∧
      (NewInteractiveFuzzyFile.updateList rank files input).VisibleStart =
        files.VisibleStart) :=
  ⟨⟨rescore_sort_items _ _, rescore_sort_scores _ _, rfl, rfl⟩,
   ⟨rescore_sort_items _ _, rescore_sort_scores _ _, rfl, rfl⟩,
   ⟨rescore_sort_items _ _, rescore_sort_scores _ _, rfl, rfl⟩⟩

/-! ## Keyboard resolver: lemmas -/

/-- A `switch` over pressed keys returns the default token or the token of one of its cases. -/
theorem switchPressed_token (d : Device) :
    ∀ cases : List (KeyboardKey × String),
      switchPressed d cases = "" ∨ switchPressed d cases ∈ cases.map Prod.snd
  | [] => Or.inl rfl
  | (key, token) :: rest => by
    unfold switchPressed
    split
    · exact Or.inr (by simp)
    · rcases switchPressed_token d rest with h | h
      · exact Or.inl h
      · exact Or.inr (List.mem_cons_of_mem _ h)

/-- A non-default token returned by a `switch` over pressed keys is the token of a case whose
key is pressed. -/
theorem switchPressed_pressed (d : Device) (t : String) (ht : t ≠ "") :
    ∀ cases : List (KeyboardKey × String),
      switchPressed d cases = t → ∃ key, (key, t) ∈ cases ∧ isPressed d key = true
  | [] => fun h => absurd h.symm ht
  | (key, token) :: rest => by
    unfold switchPressed
    split
    · rename_i hp
      intro h
      subst h
      exact ⟨key, List.mem_cons_self _ _, hp⟩
    · intro h
      obtain ⟨k, hk, hp⟩ := switchPressed_pressed d t ht rest h
      exact ⟨k, List.mem_cons_of_mem _ hk, hp⟩

/-- Every token of the case table is in the vocabulary, or is one of the two keypad operator
tokens. -/
theorem keyCases_tokens :
    ∀ t ∈ keyCases.map Prod.snd, t ∈ keyboardVocabulary ∨ t = "*" ∨ t = "+" := by
  decide

/-- The apostrophe token stands in one case only, and that case tests the apostrophe key. -/
theorem keyCases_apostrophe :
    ∀ p ∈ keyCases, p.2 = "'" → p.1 = KeyboardKey.KeyApostrophe := by
  decide

/-- With the apostrophe key pressed the first case of the `switch` fires. -/
theorem getKeyPressedString_apostrophe_key (d : Device)
    (h : isPressed d KeyboardKey.KeyApostrophe = true) : getKeyPressedString d = "`" := by
  unfold getKeyPressedString keyCases
  rw [switchPressed, if_pos h]

set_option maxRecDepth 1000000 in
/-- Each vocabulary token other than the apostrophe is returned for the device state in which
exactly the key of one of the cases is pressed. -/
theorem vocabulary_reachable_but_apostrophe :
    ∀ t ∈ keyboardVocabulary, t ≠ "'" →
      ∃ p ∈ keyCases, getKeyPressedString (Device.pressing [p.1]) = t := by
  decide

/-! ## Keyboard resolver: properties -/

/-- C9, counterexample. With the keypad multiply key pressed, `getKeyPressedString` returns
`*`, which is neither the empty string nor a token of the vocabulary (and `+` likewise for
keypad add). -/
theorem resolver_vocabulary_counterexample :
    getKeyPressedString (Device.pressing [KeyboardKey.KeyKpMultiply]) = "*" ∧
    "*" ≠ "" ∧ "*" ∉ keyboardVocabulary ∧
    getKeyPressedString (Device.pressing [KeyboardKey.KeyKpAdd]) = "+" ∧
    "+" ≠ "" ∧ "+" ∉ keyboardVocabulary := by
  decide

/-- C9, amended. For every device state the token returned by `getKeyPressedString` is the
empty string, a member of the keyboard vocabulary, or one of the two keypad operator tokens
`*` and `+`. -/
theorem resolver_emits_known_tokens (d : Device) :
    getKeyPressedString d = "" ∨ getKeyPressedString d ∈ keyboardVocabulary ∨
      getKeyPressedString d = "*" ∨ getKeyPressedString d = "+" := by
  rcases switchPressed_token d keyCases with h | h
  · exact Or.inl h
  · exact Or.inr (keyCases_tokens _ h)

/-- C10. The apostrophe token is never produced: for every device state `getKeyPressedString`
returns something else, since the case that returns it tests the apostrophe key, which the
first case of the `switch` already tests; with the apostrophe key pressed the result is the
backquote token. -/
theorem apostrophe_token_unreachable :
    (∀ d : Device, getKeyPressedString d ≠ "'") ∧
    getKeyPressedString (Device.pressing [KeyboardKey.KeyApostrophe]) = "`" := by
  refine ⟨?_, by decide⟩
  intro d h
  obtain ⟨key, hmem, hp⟩ := switchPressed_pressed d "'" (by decide) keyCases h
  have hkey : key = KeyboardKey.KeyApostrophe := keyCases_apostrophe _ hmem rfl
  subst hkey
  rw [getKeyPressedString_apostrophe_key d hp] at h
  exact absurd h (by decide)

/-! ## Mouse resolver: properties -/

/-- C11, counterexample. The wheel moved during the tick (its movement vector is `(1, 0)`), yet
`getMouseKey` returns the left-click key when the left button was pressed, and the empty key
when no button is involved: neither is a wheel token. -/
theorem wheel_overrides_counterexample :
    (Device.sidewaysWheelLeftClick.WheelX ≠ 0 ∨ Device.sidewaysWheelLeftClick.WheelY ≠ 0) ∧
    getMouseKey Device.sidewaysWheelLeftClick = keyLeftClick ∧
    (getMouseKey Device.sidewaysWheelLeftClick).K ≠ "<mouse-wheel-up>" ∧
    (getMouseKey Device.sidewaysWheelLeftClick).K ≠ "<mouse-wheel-down>" ∧
    (Device.sidewaysWheel.WheelX ≠ 0 ∨ Device.sidewaysWheel.WheelY ≠ 0) ∧
    getMouseKey Device.sidewaysWheel = Key.zero := by
  decide

/-- C11, amended. Vertical wheel motion overrides button state: for every mouse device state
whose wheel movement has a negative vertical component `getMouseKey` returns
`<mouse-wheel-down>`, and with a positive one `<mouse-wheel-up>`, whatever buttons are
pressed or held. With no vertical wheel motion the token is the one the buttons give, and
then a left, middle or right button pressed this tick yields a `-click` token, whatever
buttons are held. -/
theorem vertical_wheel_overrides_buttons (d : Device) :
    (d.WheelY < 0 → (getMouseKey d).K = "<mouse-wheel-down>") ∧
    (0 < d.WheelY → (getMouseKey d).K = "<mouse-wheel-up>") ∧
    (d.WheelY = 0 → (getMouseKey d).K = mouseButtonToken d) ∧
    (d.WheelY = 0 →
      (d.IsMouseButtonPressed MouseButton.MouseButtonLeft = true ∨
        d.IsMouseButtonPressed MouseButton.MouseButtonMiddle = true ∨
        d.IsMouseButtonPressed MouseButton.MouseButtonRight = true) →
      (getMouseKey d).K ∈ ["<lmouse>-click", "<mmouse>-click", "<rmouse>-click"]) := by
  have hzero : ∀ h : d.WheelY = 0, (getMouseKey d).K = mouseButtonToken d := by
    intro h
    unfold getMouseKey mouseWheelToken
    simp only [h, ne_eq, not_true_eq_false, or_false, if_false, ite_self]
    split
    · rename_i hk
      simp only [Key.zero]
      exact (beq_iff_eq.mp hk).symm
    · rfl
  refine ⟨?_, ?_, hzero, ?_⟩
  · intro h
    have h1 : d.WheelY ≠ 0 := by omega
    have h2 : ¬ d.WheelY > 0 := by omega
    have hne : ("<mouse-wheel-down>" == "") = false := by decide
    simp [getMouseKey, mouseWheelToken, h, h1, h2, hne]
  · intro h
    have h1 : d.WheelY ≠ 0 := by omega
    have hne : ("<mouse-wheel-up>" == "") = false := by decide
    simp [getMouseKey, mouseWheelToken, h, h1, hne]
  · intro h hp
    rw [hzero h]
    unfold mouseButtonToken
    rcases hp with hp | hp | hp
    · simp [hp]
    · by_cases h1 : d.IsMouseButtonPressed MouseButton.MouseButtonLeft = true
      · simp [h1]
      · simp [h1, hp]
    · by_cases h1 : d.IsMouseButtonPressed MouseButton.MouseButtonLeft = true
      · simp [h1]
      · by_cases h2 : d.IsMouseButtonPressed MouseButton.MouseButtonMiddle = true
        · simp [h1, h2]
        · simp [h1, h2, hp]

/-- Witness of C11 (amended): the wheel moving down wins over a left button both pressed and
held; without wheel motion a right button pressed wins over a left button held. -/
theorem vertical_wheel_overrides_buttons_witness :
    (getMouseKey Device.wheelDownLeftClick).K = "<mouse-wheel-down>" ∧
    (getMouseKey Device.rightClickLeftHeld).K ∈
      ["<lmouse>-click", "<mmouse>-click", "<rmouse>-click"] :=
  ⟨(vertical_wheel_overrides_buttons Device.wheelDownLeftClick).1 (by decide),
   (vertical_wheel_overrides_buttons Device.rightClickLeftHeld).2.2.2 (by decide)
     (Or.inr (Or.inr (by decide)))⟩

/-! ## Dispatch: entries that store no command -/

/-- C12, counterexample. The topmost keymap of the stack has an entry for `a` (and for the left
click) that stores `nil`, the keymap beneath binds the key to command 1: dispatch consults
the keymap beneath and runs command 1. -/
theorem nil_entry_wins_counterexample :
    sampleStackNilTop.get? 1 = some [(keyA, none), (keyLeftClick, none)] ∧
    List.lookup keyA [(keyA, (none : Option Nat)), (keyLeftClick, none)] = some none ∧
    sampleAppNilTop.HandleKeyEvents sampleCall (Device.pressing [KeyboardKey.KeyA]) =
      some ⟨{ sampleAppNilTop with LineNumbers := true }, [1]⟩ ∧
    sampleAppNilTop.HandleMouseEvents sampleCall Device.leftClick =
      some ⟨{ sampleAppNilTop with LineNumbers := true }, [1]⟩ := by
  decide

/-- C12, amended. An entry that stores `nil` counts as no entry: for every non-empty key and
keymap stack in which the topmost keymap having an entry for the key (index `i`) stores
`nil`, dispatch goes on to the keymaps beneath it. It runs, once, the command of the
highest-index keymap beneath that stores a non-nil command for the key, and it runs no
command at all only when no keymap beneath stores one. -/
theorem nil_entry_is_skipped {κ ν : Type} (call : Interp κ ν) (d : Device) (key : Key)
    (e : Preditor κ ν) (ed : Editor κ) (i : Nat) (keymap : Keymap κ)
    (hkey : key.IsEmpty = false)
    (hed : e.ActiveEditor = some ed)
    (hi : ed.Keymaps.get? i = some keymap)
    (hnil : keymap.lookup key = some none)
    (habove : ∀ j keymap2, i < j → ed.Keymaps.get? j = some keymap2 →
      keymap2.lookup key = none) :
    (∀ k below cmd, k < i → ed.Keymaps.get? k = some below → below.index key = some cmd →
      (∀ j keymap2, k < j → j < i → ed.Keymaps.get? j = some keymap2 →
        keymap2.index key = none) →
      (getKey d = key → e.HandleKeyEvents call d = some ⟨(call cmd e).1, [cmd]⟩) ∧
      (getMouseKey d = key → e.HandleMouseEvents call d = some ⟨(call cmd e).1, [cmd]⟩)) ∧
    ((∀ k below, k < i → ed.Keymaps.get? k = some below → below.index key = none) →
      (getKey d = key → e.HandleKeyEvents call d = some ⟨e, []⟩) ∧
      (getMouseKey d = key → e.HandleMouseEvents call d = some ⟨e, []⟩)) := by
  have hskip : ∀ j keymap2, i ≤ j → ed.Keymaps.get? j = some keymap2 →
      keymap2.index key = none := by
    intro j km2 hj hget
    rcases Nat.lt_or_eq_of_le hj with hlt | heq
    · simp [Keymap.index, habove j km2 hlt hget]
    · subst heq
      rw [hi] at hget
      cases hget
      simp [Keymap.index, hnil]
  constructor
  · intro k below cmd hk hget hcmd hbetween
    have htop : ∀ j keymap2, k < j → ed.Keymaps.get? j = some keymap2 →
        keymap2.index key = none := by
      intro j km2 hj hget2
      by_cases hji : j < i
      · exact hbetween j km2 hj hji hget2
      · exact hskip j km2 (by omega) hget2
    have hrun := dispatchKey_topmost call key e ed k below cmd hkey hed hget hcmd htop
    constructor
    · intro hk2
      unfold Preditor.HandleKeyEvents
      rw [hk2]
      exact hrun
    · intro hk2
      unfold Preditor.HandleMouseEvents
      rw [hk2]
      exact hrun
  · intro hbelow
    have hnone : ∀ km ∈ ed.Keymaps, km.index key = none := by
      intro km hmem
      obtain ⟨n, hn⟩ := List.get?_of_mem hmem
      by_cases hni : n < i
      · exact hbelow n km hni hn
      · exact hskip n km (by omega) hn
    have hrun := dispatchKey_noop call key e (Or.inr ⟨ed, hed, hnone⟩)
    constructor
    · intro hk2
      unfold Preditor.HandleKeyEvents
      rw [hk2]
      exact hrun
    · intro hk2
      unfold Preditor.HandleMouseEvents
      rw [hk2]
      exact hrun

/-- Witness of C12 (amended): with `nil` entries on top of the sample bindings, pressing `a`
runs command 1 of the keymap beneath. -/
theorem nil_entry_is_skipped_witness :
    sampleAppNilTop.HandleKeyEvents sampleCall (Device.pressing [KeyboardKey.KeyA]) =
      some ⟨(sampleCall 1 sampleAppNilTop).1, [1]⟩ :=
  ((nil_entry_is_skipped sampleCall (Device.pressing [KeyboardKey.KeyA]) keyA sampleAppNilTop
      ⟨sampleStackNilTop⟩ 1 [(keyA, none), (keyLeftClick, none)] (by decide) (by decide)
      (by decide) (by decide)
      (by
        intro j km hj hget
        have h2 : (2 : Nat) ≤ j := hj
        have hlen : sampleStackNilTop.length ≤ j := h2
        rw [List.get?_eq_none.mpr hlen] at hget
        cases hget)).1
    0 [(keyA, some 1), (keyLeftClick, some 1)] 1 (by decide) (by decide) (by decide)
    (by intro j km hj hj2; omega)).1 (by decide)

/-! ## Hex colours: lemmas -/

set_option maxRecDepth 100000 in
/-- On a hexadecimal digit the digit `switch` of `ParseUint` gives its value, below 16. -/
theorem digit_of_hex :
    ∀ c : Byte, isHexDigit c = true →
      strconv.digit c = some (hexDigitValue c) ∧ hexDigitValue c < 16 := by
  decide

set_option maxRecDepth 100000 in
/-- On any other byte the digit `switch` of `ParseUint` gives nothing, or a value that is not
below 16. -/
theorem digit_of_nonhex :
    ∀ c : Byte, isHexDigit c = false →
      (strconv.digit c).all (fun d => decide (16 ≤ d)) = true := by
  decide

/-- One round of the loop of `ParseUint` (base 16, 8 bits) on a hexadecimal digit. -/
theorem parseLoop_hex (c : Byte) (rest : List Byte) (n : Nat) (hc : isHexDigit c = true)
    (hn : 16 * n + hexDigitValue c ≤ 255) :
    strconv.parseLoop 16 ((2 ^ 64 - 1) / 16 + 1) (2 ^ 8 - 1) (c :: rest) n =
      strconv.parseLoop 16 ((2 ^ 64 - 1) / 16 + 1) (2 ^ 8 - 1) rest
        (16 * n + hexDigitValue c) := by
  obtain ⟨hd, hlt⟩ := digit_of_hex c hc
  have h1 : ¬ hexDigitValue c ≥ 16 := by omega
  have h2 : ¬ n ≥ (2 ^ 64 - 1) / 16 + 1 := by norm_num; omega
  have h3 : n * 16 % 2 ^ 64 = n * 16 := Nat.mod_eq_of_lt (by norm_num; omega)
  have h4 : (n * 16 + hexDigitValue c) % 2 ^ 64 = n * 16 + hexDigitValue c :=
    Nat.mod_eq_of_lt (by norm_num; omega)
  have h5 : ¬ (n * 16 + hexDigitValue c < n * 16 ∨ n * 16 + hexDigitValue c > 2 ^ 8 - 1) := by
    norm_num; omega
  have h6 : n * 16 = 16 * n := Nat.mul_comm _ _
  rw [strconv.parseLoop]
  simp only [hd, h1, h2, h3, h4, h5, if_false]
  rw [h6]

/-- One round of the loop of `ParseUint` (base 16) on a byte that is no hexadecimal digit. -/
theorem parseLoop_nonhex (cutoff maxVal : Nat) (c : Byte) (rest : List Byte) (n : Nat)
    (hc : isHexDigit c = false) :
    strconv.parseLoop 16 cutoff maxVal (c :: rest) n = .error "invalid syntax" := by
  have hall := digit_of_nonhex c hc
  rw [strconv.parseLoop]
  cases hd : strconv.digit c with
  | none => rfl
  | some d =>
    rw [hd] at hall
    have h16 : d ≥ 16 := by simpa using hall
    simp only [h16, if_true]

/-- The function `ParseUint(s, 16, 8)` on a two-byte string: the value of the pair when both
bytes are hexadecimal digits, a syntax error otherwise. -/
theorem parseUint_pair (c1 c2 : Byte) :
    strconv.ParseUint [c1, c2] 16 8 =
      if isHexDigit c1 = true ∧ isHexDigit c2 = true then .ok (hexPairValue c1 c2)
      else .error "invalid syntax" := by
  have hpre : strconv.ParseUint [c1, c2] 16 8 =
      strconv.parseLoop 16 ((2 ^ 64 - 1) / 16 + 1) (2 ^ 8 - 1) [c1, c2] 0 := by
    simp [strconv.ParseUint]
  rw [hpre]
  by_cases h1 : isHexDigit c1 = true
  · have b1 := (digit_of_hex c1 h1).2
    rw [parseLoop_hex c1 [c2] 0 h1 (by omega)]
    by_cases h2 : isHexDigit c2 = true
    · have b2 := (digit_of_hex c2 h2).2
      rw [parseLoop_hex c2 [] _ h2 (by omega)]
      simp [h1, h2, strconv.parseLoop, hexPairValue]
    · have h2f : isHexDigit c2 = false := by simpa using h2
      rw [parseLoop_nonhex _ _ c2 [] _ h2f]
      simp [h1, h2f]
  · have h1f : isHexDigit c1 = false := by simpa using h1
    rw [parseLoop_nonhex _ _ c1 [c2] _ h1f]
    simp [h1f]

/-- The value of a pair of hexadecimal digits fits a byte. -/
theorem hexPairValue_lt (c1 c2 : Byte) (h1 : isHexDigit c1 = true) (h2 : isHexDigit c2 = true) :
    hexPairValue c1 c2 < 256 := by
  have b1 := (digit_of_hex c1 h1).2
  have b2 := (digit_of_hex c2 h2).2
  unfold hexPairValue
  omega

/-- The function `parseHexColor` on a string of seven bytes. -/
theorem parseHexColor_seven (h r1 r2 g1 g2 b1 b2 : Byte) :
    parseHexColor [h, r1, r2, g1, g2, b1, b2] =
      if h ≠ 35 then (⟨0, 0, 0, 0⟩, some "hex color must start with '#'")
      else if ¬ (isHexDigit r1 = true ∧ isHexDigit r2 = true) then
        (⟨0, 0, 0, 0⟩, some "red component invalid")
      else if ¬ (isHexDigit g1 = true ∧ isHexDigit g2 = true) then
        (⟨hexPairValue r1 r2, 0, 0, 0⟩, some "green component invalid")
      else if ¬ (isHexDigit b1 = true ∧ isHexDigit b2 = true) then
        (⟨hexPairValue r1 r2, hexPairValue g1 g2, 0, 0⟩, some "blue component invalid")
      else (⟨hexPairValue r1 r2, hexPairValue g1 g2, hexPairValue b1 b2, 255⟩, none) := by
  have hs1 : byteSlice [h, r1, r2, g1, g2, b1, b2] 1 3 = [r1, r2] := rfl
  have hs2 : byteSlice [h, r1, r2, g1, g2, b1, b2] 3 5 = [g1, g2] := rfl
  have hs3 : byteSlice [h, r1, r2, g1, g2, b1, b2] 5 7 = [b1, b2] := rfl
  have hlen : ¬ ([h, r1, r2, g1, g2, b1, b2].length ≠ 7) := by simp
  unfold parseHexColor
  simp only [hlen, if_false, hs1, hs2, hs3, parseUint_pair, List.head?_cons]
  by_cases hh : h = 35
  · subst hh
    simp only [ne_eq, not_true_eq_false, if_false]
    by_cases hr : isHexDigit r1 = true ∧ isHexDigit r2 = true
    · have lr := Nat.mod_eq_of_lt (hexPairValue_lt r1 r2 hr.1 hr.2)
      simp only [hr, and_self, if_true, not_true_eq_false, if_false, lr]
      by_cases hg : isHexDigit g1 = true ∧ isHexDigit g2 = true
      · have lg := Nat.mod_eq_of_lt (hexPairValue_lt g1 g2 hg.1 hg.2)
        simp only [hg, and_self, if_true, not_true_eq_false, if_false, lg]
        by_cases hb : isHexDigit b1 = true ∧ isHexDigit b2 = true
        · have lb := Nat.mod_eq_of_lt (hexPairValue_lt b1 b2 hb.1 hb.2)
          simp only [hb, and_self, if_true, not_true_eq_false, if_false, lb]
        · simp only [hb, if_false, not_false_eq_true, if_true]
      · simp only [hg, if_false, not_false_eq_true, if_true]
    · simp only [hr, if_false, not_false_eq_true, if_true]
  · have hh2 : ¬ (some h = some (35 : Byte)) := fun hc => hh (Option.some.inj hc)
    simp only [ne_eq, hh, hh2, not_false_eq_true, if_true]

/-! ## Hex colours: properties -/

/-- C13. The function `parseHexColor` accepts exactly the 7-byte strings made of `#` followed by
six hexadecimal digits (either case): for every string it returns no error if and only if
the string has that form, and then `R`, `G`, `B` are the values of the byte pairs `v[1:3]`,
`v[3:5]`, `v[5:7]` read as base-16 numbers and `A` is 255; every other string yields an
error. -/
theorem parseHexColor_accepts_hex_form (v : List Byte) :
    ((parseHexColor v).2 = none ↔ isHexColorForm v = true) ∧
    (isHexColorForm v = true → (parseHexColor v).1 = hexColorValue v) ∧
    (isHexColorForm v = false → (parseHexColor v).2 ≠ none) := by
  have key : ((parseHexColor v).2 = none ↔ isHexColorForm v = true) ∧
      (isHexColorForm v = true → (parseHexColor v).1 = hexColorValue v) := by
    rcases v with _ | ⟨h, _ | ⟨r1, _ | ⟨r2, _ | ⟨g1, _ | ⟨g2, _ | ⟨b1, _ | ⟨b2, _ | ⟨x, t⟩⟩⟩⟩⟩⟩⟩⟩
    case cons.cons.cons.cons.cons.cons.cons.nil =>
      have hform : isHexColorForm [h, r1, r2, g1, g2, b1, b2] = true ↔
          (h = 35 ∧ (isHexDigit r1 = true ∧ isHexDigit r2 = true) ∧
            (isHexDigit g1 = true ∧ isHexDigit g2 = true) ∧
            (isHexDigit b1 = true ∧ isHexDigit b2 = true)) := by
        simp only [isHexColorForm, Bool.and_eq_true, decide_eq_true_eq]
        tauto
      rw [parseHexColor_seven, hform]
      by_cases hh : h = 35
      · by_cases hr : isHexDigit r1 = true ∧ isHexDigit r2 = true
        · by_cases hg : isHexDigit g1 = true ∧ isHexDigit g2 = true
          · by_cases hb : isHexDigit b1 = true ∧ isHexDigit b2 = true
            · simp only [hh, hr, hg, hb]
              simp [hexColorValue]
            · simp only [hh, hr, hg, hb]
              simp
          · simp only [hh, hr, hg]
            simp
        · simp only [hh, hr]
          simp
      · simp [hh]
    all_goals simp [parseHexColor, isHexColorForm]
  refine ⟨key.1, key.2, ?_⟩
  intro hf hnone
  rw [key.1.mp hnone] at hf
  cases hf

/-- Witness of C13: `#FF80ab` is accepted as (255, 128, 171, 255); a sign, an underscore, a
missing `#` and a wrong length are refused. -/
theorem parseHexColor_accepts_hex_form_witness :
    parseHexColor (String.goBytes "#FF80ab") = (⟨255, 128, 171, 255⟩, none) ∧
    (parseHexColor (String.goBytes "#+f80ab")).2 ≠ none ∧
    (parseHexColor (String.goBytes "#f_80ab")).2 ≠ none ∧
    (parseHexColor (String.goBytes "0FF80ab")).2 ≠ none ∧
    (parseHexColor (String.goBytes "#FF80a")).2 ≠ none :=
  ⟨Prod.ext
      ((parseHexColor_accepts_hex_form (String.goBytes "#FF80ab")).2.1 (by decide))
      ((parseHexColor_accepts_hex_form (String.goBytes "#FF80ab")).1.mpr (by decide)),
   (parseHexColor_accepts_hex_form (String.goBytes "#+f80ab")).2.2 (by decide),
   (parseHexColor_accepts_hex_form (String.goBytes "#f_80ab")).2.2 (by decide),
   (parseHexColor_accepts_hex_form (String.goBytes "0FF80ab")).2.2 (by decide),
   (parseHexColor_accepts_hex_form (String.goBytes "#FF80a")).2.2 (by decide)⟩

end EditorSpec
